import Mathlib

/-!
Verification development for the Smoother repository
(`src/model_smoother.py`, `src/api_server.py`).

The Python source composes Open3D mesh operations.  The pure geometric
core is embedded here over exact rationals: a `Mesh` carries vertex
positions, triangle index triples, optional per-triangle-corner UVs,
optional per-vertex colors and per-vertex normals (empty list = absent
attribute, matching Open3D's empty attribute arrays).  Open3D library
routines that are not part of the repository's source are modelled from
the specification's description of them; each such definition says so in
its doc comment.
-/

attribute [local semireducible] Rat.add Rat.mul Rat.sub Rat.inv Rat.ofScientific

/-- A 3D vector of exact rationals (models a float64 3-vector). -/
abbrev Q3 := ℚ × ℚ × ℚ

def q3zero : Q3 := (0, 0, 0)

def q3add (a b : Q3) : Q3 := (a.1 + b.1, a.2.1 + b.2.1, a.2.2 + b.2.2)

def q3sub (a b : Q3) : Q3 := (a.1 - b.1, a.2.1 - b.2.1, a.2.2 - b.2.2)

def q3smul (c : ℚ) (a : Q3) : Q3 := (c * a.1, c * a.2.1, c * a.2.2)

/-- Cross product of two rational 3-vectors. -/
def q3cross (a b : Q3) : Q3 :=
  (a.2.1 * b.2.2 - a.2.2 * b.2.1,
   a.2.2 * b.1 - a.1 * b.2.2,
   a.1 * b.2.1 - a.2.1 * b.1)

def q3sum (l : List Q3) : Q3 := l.foldr q3add q3zero

/-- A triangle: three vertex indices. -/
abbrev Tri := ℕ × ℕ × ℕ

/-- The mesh data model of the repository (`o3d.geometry.TriangleMesh` as
used by `model_smoother.py`): vertex positions, triangle index triples,
per-triangle-corner UVs (3 entries per triangle when present, `[]` when
absent), per-vertex colors and per-vertex normals (`[]` when absent). -/
structure Mesh where
  vertices : List Q3
  triangles : List Tri
  triangle_uvs : List (ℚ × ℚ)
  vertex_colors : List Q3
  vertex_normals : List Q3
deriving DecidableEq

/-- The neighbor indices a single triangle contributes for vertex `i`. -/
def triNeighborsOf (t : Tri) (i : ℕ) : List ℕ :=
  if t.1 = i then [t.2.1, t.2.2]
  else if t.2.1 = i then [t.1, t.2.2]
  else if t.2.2 = i then [t.1, t.2.1]
  else []

/-- Triangle-adjacent neighbor vertices of vertex `i`, without repeats. -/
def neighborIdx (tris : List Tri) (i : ℕ) : List ℕ :=
  ((tris.map (fun t => triNeighborsOf t i)).flatten).dedup

/-- One Laplacian pass with strength `factor`.
Modelled from the spec: each vertex moves toward the centroid of its
triangle-adjacent neighbors by `factor` times the Laplacian (the mean of
neighbor minus vertex); vertices with no neighbors are left unmoved. -/
def taubinStep (tris : List Tri) (factor : ℚ) (verts : List Q3) : List Q3 :=
  (List.range verts.length).map (fun i =>
    let v := verts.getD i q3zero
    let nbrs := neighborIdx tris i
    if nbrs.isEmpty then v
    else
      let centroid := q3smul (1 / (nbrs.length : ℚ)) (q3sum (nbrs.map (fun j => verts.getD j q3zero)))
      q3add v (q3smul factor (q3sub centroid v)))

def iterN : ℕ → (α → α) → α → α
  | 0, _, a => a
  | n + 1, f, a => iterN n f (f a)

/-- Modelled from the spec: Open3D's `filter_smooth_taubin` — per
iteration one contraction pass with `lambda` then one inflation pass with
`mu`; only vertex positions change, the triangle list and all attribute
arrays are carried unchanged. -/
def filter_smooth_taubin (m : Mesh) (iterations : ℕ) (lam mu : ℚ) : Mesh :=
  { m with vertices := iterN iterations (fun vs => taubinStep m.triangles mu (taubinStep m.triangles lam vs)) m.vertices }

/-- Unnormalized face normal of a triangle: the cross product of its edge
vectors (zero exactly for a zero-area triangle). -/
def faceNormal (verts : List Q3) (t : Tri) : Q3 :=
  let a := verts.getD t.1 q3zero
  let b := verts.getD t.2.1 q3zero
  let c := verts.getD t.2.2 q3zero
  q3cross (q3sub b a) (q3sub c a)

def triHasVertex (t : Tri) (i : ℕ) : Bool :=
  t.1 == i || t.2.1 == i || t.2.2 == i

/-- Per-vertex normals recomputed from positions and topology.
Modelled from the spec: each vertex normal is recomputed from the new
geometry as the sum of the cross-product normals of its incident
triangles. -/
def vertexNormalsOf (verts : List Q3) (tris : List Tri) : List Q3 :=
  (List.range verts.length).map (fun i =>
    q3sum ((tris.filter (fun t => triHasVertex t i)).map (faceNormal verts)))

/-- Open3D's `compute_vertex_normals`: replaces the per-vertex normal
array with normals recomputed from positions and triangles. -/
def compute_vertex_normals (m : Mesh) : Mesh :=
  { m with vertex_normals := vertexNormalsOf m.vertices m.triangles }

/-- `smooth_mesh_preserve_texture` from `src/model_smoother.py`: record
the UV/color attributes, run Taubin smoothing with
`mu = -lambda_filter - 0.01`, restore the recorded attributes when they
were present, and recompute vertex normals. -/
def smooth_mesh_preserve_texture (mesh : Mesh) (iterations : ℕ) (lambda_filter : ℚ) : Mesh :=
  let has_texture_coords := !mesh.triangle_uvs.isEmpty
  let has_vertex_colors := !mesh.vertex_colors.isEmpty
  let texture_coords := mesh.triangle_uvs
  let vertex_colors := mesh.vertex_colors
  let mesh_smoothed := filter_smooth_taubin mesh iterations lambda_filter (-lambda_filter - 1 / 100)
  let mesh_smoothed :=
    if has_texture_coords then { mesh_smoothed with triangle_uvs := texture_coords } else mesh_smoothed
  let mesh_smoothed :=
    if has_vertex_colors then { mesh_smoothed with vertex_colors := vertex_colors } else mesh_smoothed
  compute_vertex_normals mesh_smoothed

lemma taubinStep_length (tris : List Tri) (factor : ℚ) (verts : List Q3) :
    (taubinStep tris factor verts).length = verts.length := by
  simp [taubinStep]

lemma iterN_taubin_length (n : ℕ) (tris : List Tri) (lam mu : ℚ) (vs : List Q3) :
    (iterN n (fun vs => taubinStep tris mu (taubinStep tris lam vs)) vs).length = vs.length := by
  induction n generalizing vs with
  | zero => rfl
  | succ k ih => rw [iterN]; rw [ih]; simp [taubinStep_length]

/-- C1: smoothing is topology-preserving — for every mesh and every
iteration count, `smooth_mesh_preserve_texture` returns a mesh with the
same vertex count, the same triangle index array (hence triangle count),
the same per-triangle UV array and the same per-vertex color array as
the input; only positions (and the recomputed normals) may differ. -/
theorem smooth_mesh_preserve_texture_topology (m : Mesh) (n : ℕ) (lam : ℚ) :
    (smooth_mesh_preserve_texture m n lam).vertices.length = m.vertices.length ∧
    (smooth_mesh_preserve_texture m n lam).triangles = m.triangles ∧
    (smooth_mesh_preserve_texture m n lam).triangle_uvs = m.triangle_uvs ∧
    (smooth_mesh_preserve_texture m n lam).vertex_colors = m.vertex_colors := by
  unfold smooth_mesh_preserve_texture compute_vertex_normals filter_smooth_taubin
  constructor
  · simp only []
    split <;> split <;> simp [iterN_taubin_length]
  · constructor
    · simp only []
      split <;> split <;> rfl
    constructor
    · simp only []
      split <;> split <;> rfl
    · simp only []
      split <;> split <;> rfl

/-- A concrete three-vertex, one-triangle mesh whose stored per-vertex
normals `(1,0,0)` do not match the normals recomputed from its geometry
(the triangle lies in the xy-plane, so recomputed normals point along z). -/
def meshC2 : Mesh :=
  { vertices := [(0, 0, 0), (1, 0, 0), (0, 1, 0)]
    triangles := [(0, 1, 2)]
    triangle_uvs := []
    vertex_colors := []
    vertex_normals := [(1, 0, 0), (1, 0, 0), (1, 0, 0)] }

/-- C2 counterexample: smoothing `meshC2` with `iterations = 0` does not
return the input unchanged — `compute_vertex_normals` runs regardless of
the iteration count and replaces the stored normals. -/
theorem smooth_zero_iterations_changes_normals :
    smooth_mesh_preserve_texture meshC2 0 (1 / 2) ≠ meshC2 := by
  decide

/-- C2 amended: smoothing with `iterations = 0` leaves vertex positions,
triangles, UVs and colors unchanged, but the per-vertex normal array is
recomputed from the geometry (so it can differ from the input's). -/
theorem smooth_zero_iterations_identity_except_normals (m : Mesh) (lam : ℚ) :
    (smooth_mesh_preserve_texture m 0 lam).vertices = m.vertices ∧
    (smooth_mesh_preserve_texture m 0 lam).triangles = m.triangles ∧
    (smooth_mesh_preserve_texture m 0 lam).triangle_uvs = m.triangle_uvs ∧
    (smooth_mesh_preserve_texture m 0 lam).vertex_colors = m.vertex_colors ∧
    (smooth_mesh_preserve_texture m 0 lam).vertex_normals = vertexNormalsOf m.vertices m.triangles := by
  unfold smooth_mesh_preserve_texture compute_vertex_normals filter_smooth_taubin
  refine ⟨?_, ?_, ?_, ?_, ?_⟩ <;>
    · simp only []
      split <;> split <;> rfl

def triDefault : Tri := (0, 0, 0)

/-- Open3D's `remove_degenerate_triangles`.
Modelled from the spec: drops triangles of zero area (the cross product
of the edge vectors vanishes). -/
def removeDegenerateTriangles (m : Mesh) : Mesh :=
  { m with triangles := m.triangles.filter (fun t => !(faceNormal m.vertices t == q3zero)) }

def rotT (t : Tri) : Tri := (t.2.1, t.2.2, t.1)

/-- Two triangles have the same three vertex indices under rotation. -/
def sameTriRot (a b : Tri) : Bool := b == a || b == rotT a || b == rotT (rotT a)

/-- Keep an element only when no earlier kept element is `r`-equivalent
to it (`seen` holds the elements kept so far). -/
def dedupByAux (r : α → α → Bool) (seen : List α) : List α → List α
  | [] => []
  | x :: xs =>
    if seen.any (fun y => r y x) then dedupByAux r seen xs
    else x :: dedupByAux r (seen ++ [x]) xs

/-- Keep the first member of each equivalence class of `r`, in order. -/
def dedupBy (r : α → α → Bool) (l : List α) : List α := dedupByAux r [] l

/-- Open3D's `remove_duplicated_triangles`.
Modelled from the spec: of triangles with the same three vertex indices
under any rotation, the first in iteration order is kept. -/
def removeDuplicatedTriangles (m : Mesh) : Mesh :=
  { m with triangles := dedupBy sameTriRot m.triangles }

def isFirstOcc (verts : List Q3) (i : ℕ) : Bool :=
  decide (¬ verts.getD i q3zero ∈ verts.take i)

/-- Indices of the vertices kept by duplicate-vertex merging: the first
occurrence of each coincident position. -/
def keptVertIdx (verts : List Q3) : List ℕ :=
  (List.range verts.length).filter (isFirstOcc verts)

/-- The new index of (the representative of) old vertex `i` after
duplicate-vertex merging: the number of kept indices before the first
occurrence of `i`'s position. -/
def remapVert (verts : List Q3) (i : ℕ) : ℕ :=
  ((List.range (verts.findIdx (fun w => w == verts.getD i q3zero))).filter (isFirstOcc verts)).length

/-- Open3D's `remove_duplicated_vertices`.
Modelled from the spec: coincident positions are merged into the first
occurrence, triangle indices are remapped accordingly, and the
per-vertex attribute arrays are kept index-aligned. -/
def removeDuplicatedVertices (m : Mesh) : Mesh :=
  let kept := keptVertIdx m.vertices
  { vertices := kept.map (fun i => m.vertices.getD i q3zero)
    triangles := m.triangles.map (fun t =>
      (remapVert m.vertices t.1, remapVert m.vertices t.2.1, remapVert m.vertices t.2.2))
    triangle_uvs := m.triangle_uvs
    vertex_colors :=
      if m.vertex_colors.isEmpty then [] else kept.map (fun i => m.vertex_colors.getD i q3zero)
    vertex_normals :=
      if m.vertex_normals.isEmpty then [] else kept.map (fun i => m.vertex_normals.getD i q3zero) }

def undEdge (a b : ℕ) : ℕ × ℕ := if a ≤ b then (a, b) else (b, a)

/-- The three undirected edges of a triangle. -/
def triEdges (t : Tri) : List (ℕ × ℕ) :=
  [undEdge t.1 t.2.1, undEdge t.2.1 t.2.2, undEdge t.2.2 t.1]

/-- Number of triangles of `ts` incident to undirected edge `e`. -/
def edgeCount (ts : List Tri) (e : ℕ × ℕ) : ℕ :=
  ts.countP (fun t => (triEdges t).contains e)

/-- Open3D's `remove_non_manifold_edges`.
Modelled from the spec: an edge shared by more than two triangles is
non-manifold; for each edge the two triangles encountered first in
iteration order are kept and the rest are dropped (a later triangle is
dropped as soon as one of its edges already has two kept triangles). -/
def removeNonManifoldEdgesList (ts : List Tri) : List Tri :=
  ts.foldl (fun kept t =>
    if (triEdges t).all (fun e => decide (edgeCount kept e < 2)) then kept ++ [t] else kept) []

def removeNonManifoldEdges (m : Mesh) : Mesh :=
  { m with triangles := removeNonManifoldEdgesList m.triangles }

/-- The three directed edges of a triangle (its winding). -/
def dirEdges (t : Tri) : List (ℕ × ℕ) :=
  [(t.1, t.2.1), (t.2.1, t.2.2), (t.2.2, t.1)]

/-- Two triangles share an undirected edge. -/
def sharesEdge (a b : Tri) : Bool :=
  (triEdges a).any (fun e => (triEdges b).contains e)

/-- Adjacent triangles disagree on orientation when they traverse a
shared edge in the same direction. -/
def sameDirShared (a b : Tri) : Bool :=
  (dirEdges a).any (fun e => (dirEdges b).contains e)

/-- Reverse a triangle's winding. -/
def flipTri (t : Tri) : Tri := (t.1, t.2.2, t.2.1)

/-- One BFS expansion: orient every unvisited neighbor of `cur` against
`cur`, mark it visited, and collect its index for the queue. -/
def orientVisitNeighbors (cur : Tri) (st : List (Tri × Bool)) : List (Tri × Bool) × List ℕ :=
  (List.range st.length).foldl
    (fun acc j =>
      let tj := (acc.1.getD j (triDefault, true)).1
      let visited := (acc.1.getD j (triDefault, true)).2
      if visited then acc
      else if sharesEdge cur tj then
        (acc.1.set j ((if sameDirShared cur tj then flipTri tj else tj), true), acc.2 ++ [j])
      else acc)
    (st, [])

/-- Fuel-driven BFS over the triangle adjacency graph: seeds each
component at its first triangle in iteration order and propagates the
seed's winding. -/
def orientGo : ℕ → List (Tri × Bool) → List ℕ → List (Tri × Bool)
  | 0, st, _ => st
  | fuel + 1, st, [] =>
    match (List.range st.length).find? (fun i => !(st.getD i (triDefault, true)).2) with
    | none => st
    | some s => orientGo fuel (st.set s ((st.getD s (triDefault, true)).1, true)) [s]
  | fuel + 1, st, i :: rest =>
    let cur := (st.getD i (triDefault, true)).1
    let res := orientVisitNeighbors cur st
    orientGo fuel res.1 (rest ++ res.2)

/-- Open3D's `orient_triangles`.
Modelled from the spec: starting from a seed triangle of each component
(the first in iteration order), propagate winding across the adjacency
graph so that adjacent triangles agree on orientation. -/
def orientTriangles (m : Mesh) : Mesh :=
  { m with triangles :=
      (orientGo (2 * m.triangles.length + 1) (m.triangles.map (fun t => (t, false))) []).map (fun p => p.1) }

/-- All distinct undirected edges of a triangle list. -/
def meshEdgeList (ts : List Tri) : List (ℕ × ℕ) :=
  ((ts.map triEdges).flatten).dedup

/-- Open3D's `is_watertight`.
Modelled from the spec: every edge is incident to exactly two triangles
(no boundary edges). -/
def is_watertight (m : Mesh) : Bool :=
  (meshEdgeList m.triangles).all (fun e => edgeCount m.triangles e == 2)

/-- Open3D's `is_edge_manifold`.
Modelled from the spec: no edge is shared by more than two triangles. -/
def is_edge_manifold (m : Mesh) : Bool :=
  (meshEdgeList m.triangles).all (fun e => decide (edgeCount m.triangles e ≤ 2))

def trianglesAt (ts : List Tri) (v : ℕ) : List Tri :=
  ts.filter (fun t => triHasVertex t v)

/-- Two fan triangles are adjacent when they share an edge through `v`. -/
def shareEdgeAt (v : ℕ) (a b : Tri) : Bool :=
  (triEdges a).any (fun e => (triEdges b).contains e && (e.1 == v || e.2 == v))

/-- One step of reachability closure over triangle indices. -/
def reachStep (adj : Tri → Tri → Bool) (ts : List Tri) (reached : List ℕ) : List ℕ :=
  (List.range ts.length).filter (fun j =>
    reached.contains j || reached.any (fun i => adj (ts.getD i triDefault) (ts.getD j triDefault)))

/-- Whether a triangle list is a single connected component under `adj`
(true for the empty list). -/
def connectedUnder (adj : Tri → Tri → Bool) (ts : List Tri) : Bool :=
  if ts.isEmpty then true
  else (iterN ts.length (reachStep adj ts) [0]).length == ts.length

/-- Open3D's `is_vertex_manifold`.
Modelled from the spec: each vertex's incident-triangle fan forms a
single connected disk — the fan is connected via edges through the
vertex, and no edge through the vertex lies in more than two fan
triangles. -/
def is_vertex_manifold (m : Mesh) : Bool :=
  (List.range m.vertices.length).all (fun v =>
    let fan := trianglesAt m.triangles v
    connectedUnder (shareEdgeAt v) fan &&
    (meshEdgeList fan).all (fun e => !(e.1 == v || e.2 == v) || decide (edgeCount fan e ≤ 2)))

/-- The status triple reported by `make_print_ready` (lines 147-149 of
`src/model_smoother.py` report it on the repaired mesh). -/
structure RepairStatus where
  watertight : Bool
  vertexManifold : Bool
  edgeManifold : Bool
deriving DecidableEq

/-- `make_print_ready` from `src/model_smoother.py`, step by step in
source order.  The watertightness check after the removal steps performs
no repair (the source only prints a message there), the mesh is returned
regardless of the reported status. -/
def make_print_ready (mesh : Mesh) : Mesh × RepairStatus :=
  let m1 := removeDegenerateTriangles mesh
  let m2 := removeDuplicatedTriangles m1
  let m3 := removeDuplicatedVertices m2
  let m4 := removeNonManifoldEdges m3
  let _attempted := !is_watertight m4
  let m5 := compute_vertex_normals m4
  let m6 := orientTriangles m5
  (m6, { watertight := is_watertight m6
         vertexManifold := is_vertex_manifold m6
         edgeManifold := is_edge_manifold m6 })

/-- The six repair steps of `make_print_ready` composed in their fixed
source order. -/
def repairChain (m : Mesh) : Mesh :=
  orientTriangles (compute_vertex_normals (removeNonManifoldEdges
    (removeDuplicatedVertices (removeDuplicatedTriangles (removeDegenerateTriangles m)))))

/-- C3: `make_print_ready` applies its repair steps in the fixed order —
degenerate-triangle removal, duplicate-triangle removal,
duplicate-vertex removal, non-manifold-edge removal, vertex-normal
recomputation, consistent orientation — and returns the pair of the
repaired (best-effort) mesh together with the watertight /
vertex-manifold / edge-manifold status of that mesh; the mesh component
is the result of the repair chain regardless of the outcome of any
check. -/
theorem make_print_ready_order_and_status (m : Mesh) :
    make_print_ready m =
      (repairChain m,
       { watertight := is_watertight (repairChain m)
         vertexManifold := is_vertex_manifold (repairChain m)
         edgeManifold := is_edge_manifold (repairChain m) }) := by
  rfl

/-- Two nonzero-area triangles sharing edge `{0,1}` with the same
winding: consistent orientation forces `orient_triangles` to flip one of
them after the vertex normals have already been computed. -/
def meshC4 : Mesh :=
  { vertices := [(0, 0, 0), (1, 0, 0), (0, 1, 0), (1, 1, 0)]
    triangles := [(0, 1, 2), (0, 1, 3)]
    triangle_uvs := []
    vertex_colors := []
    vertex_normals := [] }

/-- C4: repair is not idempotent — `make_print_ready` computes vertex
normals before `orient_triangles` flips windings, so the returned
normals are stale with respect to the final orientation and a second
pass returns a different mesh even though it removes no vertex and no
triangle: the normals alone change. -/
theorem make_print_ready_second_pass_differs :
    (make_print_ready (make_print_ready meshC4).1).1 ≠ (make_print_ready meshC4).1 ∧
    (make_print_ready (make_print_ready meshC4).1).1.triangles = (make_print_ready meshC4).1.triangles ∧
    (make_print_ready (make_print_ready meshC4).1).1.vertices = (make_print_ready meshC4).1.vertices ∧
    (make_print_ready (make_print_ready meshC4).1).1.vertex_normals ≠ (make_print_ready meshC4).1.vertex_normals := by
  have hn : (make_print_ready (make_print_ready meshC4).1).1.vertex_normals ≠
      (make_print_ready meshC4).1.vertex_normals := by decide
  refine ⟨fun h => hn (congrArg Mesh.vertex_normals h), by decide, by decide, hn⟩

def insSortedQ (a : ℚ) : List ℚ → List ℚ
  | [] => [a]
  | b :: bs => if a ≤ b then a :: b :: bs else b :: insSortedQ a bs

/-- Insertion sort on rationals (ascending). -/
def sortQ (l : List ℚ) : List ℚ := l.foldr insSortedQ []

/-- Modelled from the spec: the q-th quantile value of a distribution,
as `np.quantile` computes it — sort the values and linearly interpolate
at fractional rank `q * (n - 1)`. -/
def npQuantile (xs : List ℚ) (q : ℚ) : ℚ :=
  let s := sortQ xs
  let h : ℚ := q * ((s.length : ℚ) - 1)
  let lo : ℕ := (⌊h⌋).toNat
  let frac : ℚ := h - ((⌊h⌋ : ℤ) : ℚ)
  s.getD lo 0 + frac * (s.getD (lo + 1) (s.getD lo 0) - s.getD lo 0)

/-- `mask.getD i true` is the removal flag of vertex `i`; `maskKeep` is
true when vertex `i` survives. -/
def maskKeep (mask : List Bool) (i : ℕ) : Bool := !(mask.getD i true)

/-- Indices of the vertices kept by `remove_vertices_by_mask`. -/
def vertKeptIdx (n : ℕ) (mask : List Bool) : List ℕ :=
  (List.range n).filter (maskKeep mask)

/-- New index of kept vertex `i`: the number of kept vertices before it. -/
def maskRemap (mask : List Bool) (i : ℕ) : ℕ :=
  ((List.range i).filter (maskKeep mask)).length

/-- A triangle survives the mask when all three of its corners do. -/
def keepTri (mask : List Bool) (t : Tri) : Bool :=
  maskKeep mask t.1 && maskKeep mask t.2.1 && maskKeep mask t.2.2

/-- Open3D's `remove_vertices_by_mask`.
Modelled from the spec: vertices flagged by the mask are removed together
with their incident triangles; surviving triangle indices are remapped
and per-vertex / per-triangle attribute arrays stay index-aligned. -/
def removeVerticesByMask (m : Mesh) (mask : List Bool) : Mesh :=
  let n := m.vertices.length
  let kept := vertKeptIdx n mask
  { vertices := kept.map (fun i => m.vertices.getD i q3zero)
    triangles := (m.triangles.filter (keepTri mask)).map (fun t =>
      (maskRemap mask t.1, maskRemap mask t.2.1, maskRemap mask t.2.2))
    triangle_uvs :=
      if m.triangle_uvs.isEmpty then [] else
        (((List.range m.triangles.length).filter
            (fun j => keepTri mask (m.triangles.getD j triDefault))).map
          (fun j => [m.triangle_uvs.getD (3 * j) (0, 0),
                     m.triangle_uvs.getD (3 * j + 1) (0, 0),
                     m.triangle_uvs.getD (3 * j + 2) (0, 0)])).flatten
    vertex_colors :=
      if m.vertex_colors.isEmpty then [] else kept.map (fun i => m.vertex_colors.getD i q3zero)
    vertex_normals :=
      if m.vertex_normals.isEmpty then [] else kept.map (fun i => m.vertex_normals.getD i q3zero) }

/-- Lines 112-113 of `src/model_smoother.py`: remove the vertices whose
density is strictly below the 1st-percentile density value
(`densities < np.quantile(densities, 0.01)`), with their incident
triangles. -/
def trimLowDensity (m : Mesh) (densities : List ℚ) : Mesh :=
  removeVerticesByMask m (densities.map (fun d => decide (d < npQuantile densities (1 / 100))))

lemma getD_map (f : α → β) (l : List α) (i : ℕ) (h : i < l.length) (d0 : α) (d1 : β) :
    (l.map f).getD i d1 = f (l.getD i d0) := by
  induction l generalizing i with
  | nil => simp at h
  | cons x xs ih =>
    cases i with
    | zero => rfl
    | succ k => simpa using ih k (by simpa using h)

lemma maskKeep_density (d : List ℚ) (q : ℚ) (i : ℕ) (h : i < d.length) :
    maskKeep (d.map (fun x => decide (x < q))) i = decide (q ≤ d.getD i 0) := by
  unfold maskKeep
  rw [getD_map _ _ _ (by simpa using h) 0]
  by_cases hq : d.getD i 0 < q
  · rw [decide_eq_true hq, decide_eq_false (not_le.mpr hq)]
    rfl
  · rw [decide_eq_false hq, decide_eq_true (not_lt.mp hq)]
    rfl

/-- C5: density trimming removes exactly the vertices whose density is
strictly below the 1st-percentile density value, together with their
incident triangles, and keeps every other vertex: the output vertex
array consists of the positions of exactly the indices with density at
least the threshold (in order), and the output triangles are exactly
the input triangles whose three corners all meet the threshold, with
indices remapped to the compacted numbering. -/
theorem trim_low_density_exact (m : Mesh) (d : List ℚ)
    (hd : d.length = m.vertices.length)
    (hw : ∀ t ∈ m.triangles, t.1 < m.vertices.length ∧ t.2.1 < m.vertices.length ∧ t.2.2 < m.vertices.length) :
    (trimLowDensity m d).vertices =
      ((List.range m.vertices.length).filter
        (fun i => decide (npQuantile d (1 / 100) ≤ d.getD i 0))).map
        (fun i => m.vertices.getD i q3zero) ∧
    (trimLowDensity m d).triangles =
      (m.triangles.filter (fun t =>
        decide (npQuantile d (1 / 100) ≤ d.getD t.1 0) &&
        decide (npQuantile d (1 / 100) ≤ d.getD t.2.1 0) &&
        decide (npQuantile d (1 / 100) ≤ d.getD t.2.2 0))).map
        (fun t =>
          (((List.range t.1).filter (fun j => decide (npQuantile d (1 / 100) ≤ d.getD j 0))).length,
           ((List.range t.2.1).filter (fun j => decide (npQuantile d (1 / 100) ≤ d.getD j 0))).length,
           ((List.range t.2.2).filter (fun j => decide (npQuantile d (1 / 100) ≤ d.getD j 0))).length)) := by
  set q := npQuantile d (1 / 100) with hqdef
  set mk := d.map (fun x => decide (x < q)) with hmk
  have hkeep : ∀ i, i < m.vertices.length → maskKeep mk i = decide (q ≤ d.getD i 0) := by
    intro i hi
    exact maskKeep_density d q i (hd ▸ hi)
  constructor
  · show (vertKeptIdx m.vertices.length mk).map (fun i => m.vertices.getD i q3zero) = _
    unfold vertKeptIdx
    rw [List.filter_congr (fun i hi => hkeep i (List.mem_range.mp hi))]
  · show ((m.triangles.filter (keepTri mk)).map (fun t =>
      (maskRemap mk t.1, maskRemap mk t.2.1, maskRemap mk t.2.2))) = _
    have hfil : m.triangles.filter (keepTri mk) =
        m.triangles.filter (fun t =>
          decide (q ≤ d.getD t.1 0) && decide (q ≤ d.getD t.2.1 0) && decide (q ≤ d.getD t.2.2 0)) := by
      refine List.filter_congr ?_
      intro t ht
      obtain ⟨h1, h2, h3⟩ := hw t ht
      unfold keepTri
      rw [hkeep _ h1, hkeep _ h2, hkeep _ h3]
    rw [hfil]
    refine List.map_congr_left ?_
    intro t ht
    obtain ⟨h1, h2, h3⟩ := hw t (List.mem_of_mem_filter ht)
    have hremap : ∀ a, a < m.vertices.length → maskRemap mk a =
        ((List.range a).filter (fun j => decide (q ≤ d.getD j 0))).length := by
      intro a ha
      unfold maskRemap
      rw [List.filter_congr (fun j hj => hkeep j (lt_trans (List.mem_range.mp hj) ha))]
    rw [hremap _ h1, hremap _ h2, hremap _ h3]

/-- A concrete instance for `trim_low_density_exact`: three vertices,
one triangle, densities `[1, 2, 3]` with 1st-percentile value `51/50`,
so vertex 0 (and the triangle using it) is removed. -/
theorem trim_low_density_exact_witness :
    ([(1 : ℚ), 2, 3].length = meshC2.vertices.length ∧
      ∀ t ∈ meshC2.triangles,
        t.1 < meshC2.vertices.length ∧ t.2.1 < meshC2.vertices.length ∧ t.2.2 < meshC2.vertices.length) ∧
    ((trimLowDensity meshC2 [(1 : ℚ), 2, 3]).vertices =
      ((List.range meshC2.vertices.length).filter
        (fun i => decide (npQuantile [(1 : ℚ), 2, 3] (1 / 100) ≤ [(1 : ℚ), 2, 3].getD i 0))).map
        (fun i => meshC2.vertices.getD i q3zero) ∧
    (trimLowDensity meshC2 [(1 : ℚ), 2, 3]).triangles =
      (meshC2.triangles.filter (fun t =>
        decide (npQuantile [(1 : ℚ), 2, 3] (1 / 100) ≤ [(1 : ℚ), 2, 3].getD t.1 0) &&
        decide (npQuantile [(1 : ℚ), 2, 3] (1 / 100) ≤ [(1 : ℚ), 2, 3].getD t.2.1 0) &&
        decide (npQuantile [(1 : ℚ), 2, 3] (1 / 100) ≤ [(1 : ℚ), 2, 3].getD t.2.2 0))).map
        (fun t =>
          (((List.range t.1).filter (fun j => decide (npQuantile [(1 : ℚ), 2, 3] (1 / 100) ≤ [(1 : ℚ), 2, 3].getD j 0))).length,
           ((List.range t.2.1).filter (fun j => decide (npQuantile [(1 : ℚ), 2, 3] (1 / 100) ≤ [(1 : ℚ), 2, 3].getD j 0))).length,
           ((List.range t.2.2).filter (fun j => decide (npQuantile [(1 : ℚ), 2, 3] (1 / 100) ≤ [(1 : ℚ), 2, 3].getD j 0))).length))) :=
  ⟨⟨by decide, by decide⟩,
   trim_low_density_exact meshC2 [(1 : ℚ), 2, 3] (by decide) (by decide)⟩

def emptyMesh : Mesh :=
  { vertices := [], triangles := [], triangle_uvs := [], vertex_colors := [], vertex_normals := [] }

/-- Reference-level view of `make_print_ready`: Python passes the mesh
object by reference and every repair operation in the function body
(`remove_degenerate_triangles`, ..., `orient_triangles`) mutates that
object in place; `return mesh` returns the very same reference.  A store
(list of mesh objects) with an index models the heap. -/
def make_print_ready_ref (s : List Mesh) (r : ℕ) : ℕ × List Mesh :=
  (r, s.set r (make_print_ready (s.getD r emptyMesh)).1)

/-- C10: `make_print_ready` mutates its argument in place and returns
the same mesh object it was given — after the call the reference it
returns is the argument reference, the store cell at that reference
holds the repaired mesh (the pre-repair value is gone), every other
store cell is untouched, and no new object is allocated. -/
theorem make_print_ready_in_place (s : List Mesh) (r : ℕ) (h : r < s.length) :
    (make_print_ready_ref s r).1 = r ∧
    (make_print_ready_ref s r).2.getD r emptyMesh = (make_print_ready (s.getD r emptyMesh)).1 ∧
    (∀ j, j ≠ r → (make_print_ready_ref s r).2.getD j emptyMesh = s.getD j emptyMesh) ∧
    (make_print_ready_ref s r).2.length = s.length := by
  refine ⟨rfl, ?_, ?_, by simp [make_print_ready_ref]⟩
  · show (s.set r _).getD r emptyMesh = _
    rw [List.getD_eq_getElem?_getD, List.getElem?_set_self (by simpa using h)]
    rfl
  · intro j hj
    show (s.set r _).getD j emptyMesh = _
    rw [List.getD_eq_getElem?_getD, List.getElem?_set_ne (fun he => hj he.symm),
      ← List.getD_eq_getElem?_getD]

/-- A concrete instance for `make_print_ready_in_place` on a two-cell
store. -/
theorem make_print_ready_in_place_witness :
    (0 < [meshC2, meshC4].length) ∧
    ((make_print_ready_ref [meshC2, meshC4] 0).1 = 0 ∧
     (make_print_ready_ref [meshC2, meshC4] 0).2.getD 0 emptyMesh =
       (make_print_ready ([meshC2, meshC4].getD 0 emptyMesh)).1 ∧
     (∀ j, j ≠ 0 → (make_print_ready_ref [meshC2, meshC4] 0).2.getD j emptyMesh =
       [meshC2, meshC4].getD j emptyMesh) ∧
     (make_print_ready_ref [meshC2, meshC4] 0).2.length = [meshC2, meshC4].length) :=
  ⟨by decide, make_print_ready_in_place [meshC2, meshC4] 0 (by decide)⟩

/-- The error taxonomy of the spec: load / processing / save failures
(Python exceptions raised by the corresponding stages). -/
inductive StageError where
  | loadError : StageError
  | processingError : StageError
  | saveError : StageError
deriving DecidableEq

/-- A point sample drawn from a mesh surface: positions and (after
estimation) per-point normals; no topology. -/
structure PointSample where
  points : List Q3
  normals : List Q3
deriving DecidableEq

/-- A reconstruction result is degenerate when no triangle has nonzero
area (in particular when it has zero triangles). -/
def degenerateResult (m : Mesh) : Bool :=
  m.triangles.all (fun t => faceNormal m.vertices t == q3zero)

/-- Modelled from the spec: Open3D's `create_from_point_cloud_poisson` —
the octree fit and level-set extraction are abstracted by `core`, which
yields the raw mesh and the per-vertex density field; the failure
contract is the spec's: an input sample with fewer points than the
minimum needed for a stable octree fit, or a degenerate (near-zero-area)
result, signals a processing error. -/
def create_from_point_cloud_poisson (minPts : ℕ) (core : PointSample → Mesh × List ℚ)
    (s : PointSample) : Except StageError (Mesh × List ℚ) :=
  if s.points.length < minPts then .error .processingError
  else if degenerateResult (core s).1 then .error .processingError
  else .ok (core s)

/-- `remove_noise_and_bumps` from `src/model_smoother.py`: sample points
uniformly (a randomized library call, abstracted as `samplePoints`),
remove statistical outliers, estimate normals (both abstracted), run
Poisson reconstruction, and trim the vertices below the 1st density
percentile.  The wrapper performs no error check of its own; a
reconstruction failure propagates unchanged. -/
def remove_noise_and_bumps (samplePoints : Mesh → PointSample)
    (removeOutliers estimateNormals : PointSample → PointSample)
    (minPts : ℕ) (core : PointSample → Mesh × List ℚ) (mesh : Mesh) :
    Except StageError Mesh :=
  let pcd := samplePoints mesh
  let pcd_filtered := removeOutliers pcd
  let pcd_normals := estimateNormals pcd_filtered
  match create_from_point_cloud_poisson minPts core pcd_normals with
  | .error e => .error e
  | .ok md => .ok (trimLowDensity md.1 md.2)

/-- C7: if the sample reaching reconstruction has fewer points than the
minimum needed for a stable octree fit, or the reconstruction's raw
result is degenerate (near-zero area), then `remove_noise_and_bumps`
signals the processing error. -/
theorem reconstructor_error_on_small_or_degenerate
    (samplePoints : Mesh → PointSample) (removeOutliers estimateNormals : PointSample → PointSample)
    (minPts : ℕ) (core : PointSample → Mesh × List ℚ) (mesh : Mesh)
    (h : (estimateNormals (removeOutliers (samplePoints mesh))).points.length < minPts ∨
         degenerateResult (core (estimateNormals (removeOutliers (samplePoints mesh)))).1 = true) :
    remove_noise_and_bumps samplePoints removeOutliers estimateNormals minPts core mesh =
      .error .processingError := by
  unfold remove_noise_and_bumps create_from_point_cloud_poisson
  dsimp only
  rcases h with h | h
  · rw [if_pos h]
  · by_cases hlen : (estimateNormals (removeOutliers (samplePoints mesh))).points.length < minPts
    · rw [if_pos hlen]
    · rw [if_neg hlen, if_pos h]

/-- A concrete instance for `reconstructor_error_on_small_or_degenerate`:
an empty sample with a one-point minimum. -/
theorem reconstructor_error_witness :
    ((((fun s => s) : PointSample → PointSample)
        (((fun s => s) : PointSample → PointSample)
          (((fun _ => ⟨[], []⟩) : Mesh → PointSample) emptyMesh))).points.length < 1 ∨
      degenerateResult (((fun _ => (emptyMesh, [])) : PointSample → Mesh × List ℚ)
        ((fun s => s) ((fun s => s) ((fun _ => ⟨[], []⟩) emptyMesh)))).1 = true) ∧
    remove_noise_and_bumps (fun _ => ⟨[], []⟩) (fun s => s) (fun s => s) 1
      (fun _ => (emptyMesh, [])) emptyMesh = .error .processingError :=
  ⟨Or.inl (by decide),
   reconstructor_error_on_small_or_degenerate (fun _ => ⟨[], []⟩) (fun s => s) (fun s => s) 1
     (fun _ => (emptyMesh, [])) emptyMesh (Or.inl (by decide))⟩

/-- The stages `process_model` can invoke, in source order. -/
inductive StageCall where
  | loadCall : StageCall
  | smoothCall : StageCall
  | denoiseCall : StageCall
  | repairCall : StageCall
  | saveCall : StageCall
deriving DecidableEq

/-- The mesh the pipeline computes before saving: load → smooth →
(denoise when the flag is set) → repair, each stage feeding the next,
any stage failure short-circuiting — the data flow of `process_model`'s
`try` block in `src/model_smoother.py`. -/
def pipelineMesh (loadF : ℕ → Except StageError Mesh)
    (smoothF : Mesh → ℕ → Except StageError Mesh)
    (denoiseF : Mesh → Except StageError Mesh)
    (repairF : Mesh → Except StageError Mesh)
    (inputPath smoothIterations : ℕ) (removeBumps : Bool) : Except StageError Mesh :=
  match loadF inputPath with
  | .error e => .error e
  | .ok m0 =>
    match smoothF m0 smoothIterations with
    | .error e => .error e
    | .ok m1 =>
      match (if removeBumps then denoiseF m1 else .ok m1) with
      | .error e => .error e
      | .ok m2 => repairF m2

/-- `process_model` from `src/model_smoother.py`: runs the stages of the
`try` block in order and returns the success boolean (`True` after a
successful save, `False` as soon as any stage raises).  The stage
functions are parameters: `load`/`save` are I/O collaborators, and the
claim quantifies over arbitrary stage failures.  The second component
records which stages were invoked, in order. -/
def process_model (loadF : ℕ → Except StageError Mesh)
    (smoothF : Mesh → ℕ → Except StageError Mesh)
    (denoiseF : Mesh → Except StageError Mesh)
    (repairF : Mesh → Except StageError Mesh)
    (saveF : Mesh → ℕ → Except StageError Unit)
    (inputPath outputPath smoothIterations : ℕ) (removeBumps : Bool) : Bool × List StageCall :=
  match loadF inputPath with
  | .error _ => (false, [.loadCall])
  | .ok m0 =>
    match smoothF m0 smoothIterations with
    | .error _ => (false, [.loadCall, .smoothCall])
    | .ok m1 =>
      if removeBumps then
        match denoiseF m1 with
        | .error _ => (false, [.loadCall, .smoothCall, .denoiseCall])
        | .ok m2 =>
          match repairF m2 with
          | .error _ => (false, [.loadCall, .smoothCall, .denoiseCall, .repairCall])
          | .ok m3 =>
            match saveF m3 outputPath with
            | .error _ => (false, [.loadCall, .smoothCall, .denoiseCall, .repairCall, .saveCall])
            | .ok _ => (true, [.loadCall, .smoothCall, .denoiseCall, .repairCall, .saveCall])
      else
        match repairF m1 with
        | .error _ => (false, [.loadCall, .smoothCall, .repairCall])
        | .ok m3 =>
          match saveF m3 outputPath with
          | .error _ => (false, [.loadCall, .smoothCall, .repairCall, .saveCall])
          | .ok _ => (true, [.loadCall, .smoothCall, .repairCall, .saveCall])

/-- C8: if any core stage (load, smooth, denoise, repair) fails, the
pipeline aborts immediately — the run reports failure, `save` is never
invoked (no output is emitted, no partial mesh substituted), and no
stage is invoked twice (no retry). -/
theorem process_model_aborts_on_stage_failure
    (loadF : ℕ → Except StageError Mesh) (smoothF : Mesh → ℕ → Except StageError Mesh)
    (denoiseF repairF : Mesh → Except StageError Mesh) (saveF : Mesh → ℕ → Except StageError Unit)
    (inputPath outputPath smoothIterations : ℕ) (removeBumps : Bool) (e : StageError)
    (h : pipelineMesh loadF smoothF denoiseF repairF inputPath smoothIterations removeBumps = .error e) :
    (process_model loadF smoothF denoiseF repairF saveF inputPath outputPath smoothIterations removeBumps).1 = false ∧
    StageCall.saveCall ∉ (process_model loadF smoothF denoiseF repairF saveF inputPath outputPath smoothIterations removeBumps).2 ∧
    (process_model loadF smoothF denoiseF repairF saveF inputPath outputPath smoothIterations removeBumps).2.Nodup := by
  unfold pipelineMesh at h
  unfold process_model
  rcases h1 : loadF inputPath with e0 | m0
  · refine ⟨rfl, ?_, ?_⟩ <;> simp
  · rw [h1] at h
    dsimp only at h ⊢
    rcases h2 : smoothF m0 smoothIterations with e1 | m1
    · refine ⟨rfl, ?_, ?_⟩ <;> simp
    · rw [h2] at h
      dsimp only at h ⊢
      cases removeBumps with
      | true =>
        rw [if_pos rfl] at h ⊢
        rcases h3 : denoiseF m1 with e2 | m2
        · refine ⟨rfl, ?_, ?_⟩ <;> simp
        · rw [h3] at h
          dsimp only at h ⊢
          rcases h4 : repairF m2 with e3 | m3
          · refine ⟨rfl, ?_, ?_⟩ <;> simp
          · rw [h4] at h
            exact absurd h (by simp)
      | false =>
        rw [if_neg Bool.false_ne_true] at h ⊢
        dsimp only at h ⊢
        rcases h4 : repairF m1 with e3 | m3
        · refine ⟨rfl, ?_, ?_⟩ <;> simp
        · rw [h4] at h
          exact absurd h (by simp)

/-- A concrete instance for `process_model_aborts_on_stage_failure`: the
smoothing stage fails, the run reports failure and `save` is not
invoked. -/
theorem process_model_aborts_witness :
    (pipelineMesh (fun _ => .ok emptyMesh) (fun _ _ => .error .processingError)
        (fun m => .ok m) (fun m => .ok m) 0 5 true = .error .processingError) ∧
    ((process_model (fun _ => .ok emptyMesh) (fun _ _ => .error .processingError)
        (fun m => .ok m) (fun m => .ok m) (fun _ _ => .ok ()) 0 0 5 true).1 = false ∧
      StageCall.saveCall ∉ (process_model (fun _ => .ok emptyMesh) (fun _ _ => .error .processingError)
        (fun m => .ok m) (fun m => .ok m) (fun _ _ => .ok ()) 0 0 5 true).2 ∧
      (process_model (fun _ => .ok emptyMesh) (fun _ _ => .error .processingError)
        (fun m => .ok m) (fun m => .ok m) (fun _ _ => .ok ()) 0 0 5 true).2.Nodup) :=
  ⟨rfl, process_model_aborts_on_stage_failure (fun _ => .ok emptyMesh)
    (fun _ _ => .error .processingError) (fun m => .ok m) (fun m => .ok m) (fun _ _ => .ok ())
    0 0 5 true .processingError rfl⟩

/-- Default smoothing iteration count of `process_model`
(`smooth_iterations=5` in `src/model_smoother.py`). -/
def smooth_iterations_default : ℕ := 5

/-- Default remove-bumps flag of `process_model` (`remove_bumps=True`). -/
def remove_bumps_default : Bool := true

/-- `process_model` invoked with its Python default arguments. -/
def process_model_with_defaults (loadF : ℕ → Except StageError Mesh)
    (smoothF : Mesh → ℕ → Except StageError Mesh)
    (denoiseF repairF : Mesh → Except StageError Mesh)
    (saveF : Mesh → ℕ → Except StageError Unit)
    (inputPath outputPath : ℕ) : Bool × List StageCall :=
  process_model loadF smoothF denoiseF repairF saveF inputPath outputPath
    smooth_iterations_default remove_bumps_default

/-- C9 counterexample: the value returned by `process_model` is not the
processed mesh (nor an error value) — two runs whose pipelines produce
different meshes return the identical result `True`, so the result
carries no mesh. -/
theorem process_model_result_is_not_the_mesh :
    process_model (fun _ => .ok meshC2) (fun m _ => .ok m) (fun m => .ok m) (fun m => .ok m)
        (fun _ _ => .ok ()) 0 0 smooth_iterations_default remove_bumps_default =
      process_model (fun _ => .ok meshC4) (fun m _ => .ok m) (fun m => .ok m) (fun m => .ok m)
        (fun _ _ => .ok ()) 0 0 smooth_iterations_default remove_bumps_default ∧
    pipelineMesh (fun _ => .ok meshC2) (fun m _ => .ok m) (fun m => .ok m) (fun m => .ok m)
        0 smooth_iterations_default remove_bumps_default ≠
      pipelineMesh (fun _ => .ok meshC4) (fun m _ => .ok m) (fun m => .ok m) (fun m => .ok m)
        0 smooth_iterations_default remove_bumps_default := by
  constructor
  · rfl
  · intro hcontra
    have h2 : (Except.ok meshC2 : Except StageError Mesh) = Except.ok meshC4 := hcontra
    have h3 : meshC2 = meshC4 := Except.ok.inj h2
    have h4 : meshC2 ≠ meshC4 := by decide
    exact h4 h3

/-- C9 amended: `process_model` takes a smoothing-iteration count
defaulting to 5 and a remove-bumps flag defaulting to true, and returns
a success boolean (with the stage-call trace), not the mesh: the result
is `True` exactly when every pipeline stage produced a mesh and the save
succeeded — the processed mesh itself is only written out by `save`. -/
theorem process_model_defaults_and_result
    (loadF : ℕ → Except StageError Mesh) (smoothF : Mesh → ℕ → Except StageError Mesh)
    (denoiseF repairF : Mesh → Except StageError Mesh) (saveF : Mesh → ℕ → Except StageError Unit)
    (inputPath outputPath smoothIterations : ℕ) (removeBumps : Bool) :
    smooth_iterations_default = 5 ∧
    remove_bumps_default = true ∧
    process_model_with_defaults loadF smoothF denoiseF repairF saveF inputPath outputPath =
      process_model loadF smoothF denoiseF repairF saveF inputPath outputPath 5 true ∧
    ((process_model loadF smoothF denoiseF repairF saveF inputPath outputPath smoothIterations removeBumps).1 = true ↔
      ∃ m, pipelineMesh loadF smoothF denoiseF repairF inputPath smoothIterations removeBumps = .ok m ∧
        saveF m outputPath = .ok ()) := by
  refine ⟨rfl, rfl, rfl, ?_⟩
  unfold process_model pipelineMesh
  rcases h1 : loadF inputPath with e0 | m0
  · refine ⟨fun hf => absurd hf (by simp), ?_⟩
    rintro ⟨m, hm, _⟩
    simp at hm
  · dsimp only
    rcases h2 : smoothF m0 smoothIterations with e1 | m1
    · refine ⟨fun hf => absurd hf (by simp), ?_⟩
      rintro ⟨m, hm, _⟩
      simp at hm
    · dsimp only
      cases removeBumps with
      | true =>
        simp only [reduceIte]
        rcases h3 : denoiseF m1 with e2 | m2
        · refine ⟨fun hf => absurd hf (by simp), ?_⟩
          rintro ⟨m, hm, _⟩
          simp at hm
        · dsimp only
          rcases h4 : repairF m2 with e3 | m3
          · refine ⟨fun hf => absurd hf (by simp), ?_⟩
            rintro ⟨m, hm, _⟩
            simp at hm
          · dsimp only
            rcases h5 : saveF m3 outputPath with e4 | u
            · refine ⟨fun hf => absurd hf (by simp), ?_⟩
              rintro ⟨m, hm, hs⟩
              have hm2 : m3 = m := by simpa using hm
              rw [← hm2] at hs
              exact absurd (h5.symm.trans hs) (by simp)
            · cases u
              exact ⟨fun _ => ⟨m3, rfl, h5⟩, fun _ => rfl⟩
      | false =>
        simp only [Bool.false_eq_true, if_false]
        rcases h4 : repairF m1 with e3 | m3
        · refine ⟨fun hf => absurd hf (by simp), ?_⟩
          rintro ⟨m, hm, _⟩
          simp at hm
        · dsimp only
          rcases h5 : saveF m3 outputPath with e4 | u
          · refine ⟨fun hf => absurd hf (by simp), ?_⟩
            rintro ⟨m, hm, hs⟩
            have hm2 : m3 = m := by simpa using hm
            rw [← hm2] at hs
            exact absurd (h5.symm.trans hs) (by simp)
          · cases u
            exact ⟨fun _ => ⟨m3, rfl, h5⟩, fun _ => rfl⟩

/-- A sampled 3D point.  The statistical contract of outlier removal is
stated over the reals (the float computation idealized exactly). -/
abbrev R3 := ℝ × ℝ × ℝ

def r3zero : R3 := (0, 0, 0)

/-- Euclidean distance between two sampled points. -/
noncomputable def rdist3 (p q : R3) : ℝ :=
  Real.sqrt ((p.1 - q.1) ^ 2 + (p.2.1 - q.2.1) ^ 2 + (p.2.2 - q.2.2) ^ 2)

/-- Boolean comparison on the reals (classical). -/
noncomputable def rleb (a b : ℝ) : Bool := decide (a ≤ b)

def insSortedBy (le : α → α → Bool) (a : α) : List α → List α
  | [] => [a]
  | b :: bs => if le a b then a :: b :: bs else b :: insSortedBy le a bs

/-- Insertion sort by a boolean comparison (ascending). -/
def sortBy (le : α → α → Bool) (l : List α) : List α := l.foldr (insSortedBy le) []

/-- Mean of a list of reals (0 for the empty list). -/
noncomputable def rmean (xs : List ℝ) : ℝ := xs.sum / xs.length

/-- Population standard deviation of a list of reals. -/
noncomputable def rstd (xs : List ℝ) : ℝ :=
  Real.sqrt (rmean (xs.map (fun x => (x - rmean xs) ^ 2)))

/-- Mean Euclidean distance from point `i` to its `k` nearest neighbors
in the sample (the `k` smallest distances to the other points). -/
noncomputable def knnMeanDist (k : ℕ) (pts : List R3) (i : ℕ) : ℝ :=
  rmean ((sortBy rleb
    (((List.range pts.length).filter (fun j => j != i)).map
      (fun j => rdist3 (pts.getD i r3zero) (pts.getD j r3zero)))).take k)

/-- The per-point mean-distance scores of the whole sample. -/
noncomputable def solScores (k : ℕ) (pts : List R3) : List ℝ :=
  (List.range pts.length).map (knnMeanDist k pts)

/-- Indices of the points kept by statistical outlier removal: those
whose mean-distance score does not exceed `mean + ratio * std` of the
scores. -/
noncomputable def solKeptIdx (k : ℕ) (ratio : ℝ) (pts : List R3) : List ℕ :=
  (List.range pts.length).filter
    (fun i => rleb ((solScores k pts).getD i 0)
      (rmean (solScores k pts) + ratio * rstd (solScores k pts)))

/-- Modelled from the spec: Open3D's `remove_statistical_outlier` — for
every sampled point compute the mean Euclidean distance to its
`nb_neighbors` nearest neighbors, then discard every point whose
mean-distance exceeds the sample-wide mean plus `std_ratio` times the
standard deviation of these per-point mean distances. -/
noncomputable def remove_statistical_outlier (k : ℕ) (ratio : ℝ) (pts : List R3) : List R3 :=
  (solKeptIdx k ratio pts).map (fun i => pts.getD i r3zero)

lemma getD_range (n i : ℕ) (h : i < n) : (List.range n).getD i 0 = i := by
  rw [List.getD_eq_getElem?_getD, List.getElem?_range h]
  rfl

/-- C6: statistical outlier removal (with the source's defaults
`nb_neighbors = 20`, `std_ratio = 2.0`) keeps exactly the points whose
mean distance to their 20 nearest neighbors is at most the sample-wide
mean of these per-point mean distances plus 2 times their standard
deviation — every other point is discarded — and for every sample and
any parameters the filtered sample size is at most the drawn sample
size. -/
theorem remove_statistical_outlier_exact (pts : List R3) (k : ℕ) (ratio : ℝ) :
    (remove_statistical_outlier k ratio pts).length ≤ pts.length ∧
    (∀ i, i ∈ solKeptIdx 20 2 pts ↔
      i < pts.length ∧
      knnMeanDist 20 pts i ≤ rmean (solScores 20 pts) + 2 * rstd (solScores 20 pts)) := by
  constructor
  · calc (remove_statistical_outlier k ratio pts).length
        = (solKeptIdx k ratio pts).length := List.length_map _ _
      _ ≤ (List.range pts.length).length := List.length_filter_le _ _
      _ = pts.length := List.length_range _
  · intro i
    unfold solKeptIdx
    rw [List.mem_filter, List.mem_range]
    constructor
    · rintro ⟨hi, hb⟩
      refine ⟨hi, ?_⟩
      have hsc : (solScores 20 pts).getD i 0 = knnMeanDist 20 pts i := by
        unfold solScores
        rw [getD_map _ _ _ (by simpa using hi) 0, getD_range _ _ hi]
      rw [hsc] at hb
      exact of_decide_eq_true hb
    · rintro ⟨hi, hle⟩
      refine ⟨hi, ?_⟩
      have hsc : (solScores 20 pts).getD i 0 = knnMeanDist 20 pts i := by
        unfold solScores
        rw [getD_map _ _ _ (by simpa using hi) 0, getD_range _ _ hi]
      rw [rleb, hsc]
      exact decide_eq_true hle
